import Mathlib

/-!
Verification development for the design-harmony plugin (src/code.ts).

Modelling conventions (shallow embedding):

* JavaScript numbers are modelled as exact rationals (`ℚ`).  The special
  values `Infinity`, `-Infinity` and `NaN`, which arise from `Math.min()` /
  `Math.max()` over empty argument lists and from arithmetic on them, are
  modelled by the wrapper type `JsNum` with the IEEE-754 propagation rules
  used by JavaScript (modulo the sign of zero, which `ℚ` does not carry;
  every division by zero reachable in this code has a `+0` divisor).
  `Math.round` is "round half toward positive infinity", i.e. `⌊x + 1/2⌋`.

* A Figma scene node is a tree (`Node`) of attribute records (`NodeAttrs`).
  `fills = some l` models a node whose `fills` property exists and is an
  array (the source guards with `Array.isArray`); `none` covers both a
  missing property and a non-array (`figma.mixed`) value, which the source
  treats identically everywhere it reads fills.  `cornerRadius : Option ℚ`
  models the optional numeric corner radius of the spec's data model;
  non-numeric (`figma.mixed`) radii are filtered out by the source
  (`typeof r === 'number'`) and are modelled as `none`.  `padding = some
  (l, r, t, b)` models the presence of `paddingLeft` (the source reads all
  four sides whenever `paddingLeft` exists).  `fontName = none` models a
  text node whose font metadata cannot be resolved (a `figma.mixed` font
  name, or a `loadFontAsync` failure, both of which make the extractor skip
  the node's typography contribution).

* `isNodeVisible` in the source walks the parent chain; our trees carry no
  parent pointers, so a traversal entered at a root assumes the root's
  ancestors are visible (the host guarantees the selected roots are in the
  document).  Within the subtree the source's repeated full-chain walk is
  equivalent to checking each node's own `visible` flag during descent,
  which is what `collectAllNodes` / `getComponentsOfType` do.

* `console.log` calls and the dead local bindings `inRange` / `shapeScore`
  inside `extractPatternsFromSingleNode` (computed and discarded by the
  source) have no observable effect and are omitted.
-/

set_option maxRecDepth 100000

/-- JavaScript number: an exact rational, or one of the IEEE specials. -/
inductive JsNum where
  | fin (q : ℚ)
  | posInf
  | negInf
  | nan
deriving DecidableEq, Repr

/-- JavaScript `<=` on numbers (`NaN` compares false with everything). -/
def jsLe : JsNum → JsNum → Bool
  | .nan, _ => false
  | _, .nan => false
  | .negInf, _ => true
  | _, .negInf => false
  | _, .posInf => true
  | .posInf, _ => false
  | .fin a, .fin b => decide (a ≤ b)

/-- JavaScript `<` on numbers. -/
def jsLt : JsNum → JsNum → Bool
  | .nan, _ => false
  | _, .nan => false
  | .negInf, .negInf => false
  | .negInf, _ => true
  | _, .negInf => false
  | .posInf, _ => false
  | _, .posInf => true
  | .fin a, .fin b => decide (a < b)

/-- JavaScript unary minus. -/
def jsNeg : JsNum → JsNum
  | .fin q => .fin (-q)
  | .posInf => .negInf
  | .negInf => .posInf
  | .nan => .nan

/-- JavaScript addition. -/
def jsAdd : JsNum → JsNum → JsNum
  | .nan, _ => .nan
  | _, .nan => .nan
  | .posInf, .negInf => .nan
  | .negInf, .posInf => .nan
  | .posInf, _ => .posInf
  | _, .posInf => .posInf
  | .negInf, _ => .negInf
  | _, .negInf => .negInf
  | .fin a, .fin b => .fin (a + b)

/-- JavaScript subtraction. -/
def jsSub (a b : JsNum) : JsNum := jsAdd a (jsNeg b)

/-- JavaScript multiplication (`0 * Infinity = NaN`). -/
def jsMul : JsNum → JsNum → JsNum
  | .nan, _ => .nan
  | _, .nan => .nan
  | .fin a, .fin b => .fin (a * b)
  | .posInf, .fin b => if b = 0 then .nan else if 0 < b then .posInf else .negInf
  | .negInf, .fin b => if b = 0 then .nan else if 0 < b then .negInf else .posInf
  | .fin a, .posInf => if a = 0 then .nan else if 0 < a then .posInf else .negInf
  | .fin a, .negInf => if a = 0 then .nan else if 0 < a then .negInf else .posInf
  | .posInf, .posInf => .posInf
  | .posInf, .negInf => .negInf
  | .negInf, .posInf => .negInf
  | .negInf, .negInf => .posInf

/-- JavaScript division.  A zero divisor behaves as `+0` (the only zero
    divisors reachable in this code arise as `x - x` of finite values,
    which is `+0` in IEEE arithmetic); `ℚ` itself has a single zero. -/
def jsDiv : JsNum → JsNum → JsNum
  | .nan, _ => .nan
  | _, .nan => .nan
  | .fin a, .fin b =>
      if b = 0 then (if a = 0 then .nan else if 0 < a then .posInf else .negInf)
      else .fin (a / b)
  | .fin _, .posInf => .fin 0
  | .fin _, .negInf => .fin 0
  | .posInf, .fin b => if 0 ≤ b then .posInf else .negInf
  | .negInf, .fin b => if 0 ≤ b then .negInf else .posInf
  | .posInf, _ => .nan
  | .negInf, _ => .nan

/-- JavaScript `Math.max` of two numbers (`NaN` absorbs). -/
def jsMax : JsNum → JsNum → JsNum
  | .nan, _ => .nan
  | _, .nan => .nan
  | a, b => if jsLt a b then b else a

/-- Floor of a rational, written computably (`q.num / q.den` with integer
    division); equal to `⌊q⌋` (lemma `jfloor_eq` below). -/
def jfloor (q : ℚ) : ℤ := q.num / q.den

/-- JavaScript `Math.round`: round half toward `+∞`. -/
def jsRound : JsNum → JsNum
  | .fin q => .fin ((jfloor (q + 1/2) : ℤ) : ℚ)
  | x => x

/-- `Math.min(...xs)`: `+Infinity` on an empty argument list. -/
def jsMinList : List ℚ → JsNum
  | [] => .posInf
  | x :: xs => .fin (xs.foldl min x)

/-- `Math.max(...xs)`: `-Infinity` on an empty argument list. -/
def jsMaxList : List ℚ → JsNum
  | [] => .negInf
  | x :: xs => .fin (xs.foldl max x)

/-- `Math.round` on a plain rational (used for the colour-channel bytes). -/
def jround (q : ℚ) : ℤ := jfloor (q + 1/2)

/-- Lower-case a string (ASCII, as the source's names and patterns are). -/
def strLower (s : String) : String := String.mk (s.data.map Char.toLower)

/-- Boolean list-prefix test (helper for the substring test below). -/
def prefixB : List Char → List Char → Bool
  | [], _ => true
  | _ :: _, [] => false
  | a :: as, b :: bs => a == b && prefixB as bs

/-- JavaScript `String.prototype.includes` over character lists. -/
def subListB (needle : List Char) : List Char → Bool
  | [] => prefixB needle []
  | c :: cs => prefixB needle (c :: cs) || subListB needle cs

/-- Append an element to a list unless already present: the insertion-order
    semantics of adding to a JavaScript `Set`. -/
def addUnique [BEq α] (xs : List α) (x : α) : List α :=
  if xs.contains x then xs else xs ++ [x]

/-- A normalized RGB triple (each channel in `[0,1]`). -/
structure Rgb where
  r : ℚ
  g : ℚ
  b : ℚ
deriving DecidableEq, Repr

/-- One hexadecimal digit, upper case (the source upper-cases the string). -/
def hexDigitChar (n : Nat) : Char :=
  if n < 10 then Char.ofNat (48 + n) else Char.ofNat (55 + n)

/-- The last `k` hexadecimal digits of `v`, most significant first. -/
def hexDigitsAux : Nat → Nat → List Char
  | 0, _ => []
  | k + 1, v => hexDigitsAux k (v / 16) ++ [hexDigitChar (v % 16)]

/-- `rgbToHex` (src/code.ts:9): each channel is `Math.round(c * 255)`; the
    source renders `(1 << 24) + (r << 16) + (g << 8) + b` in base 16 and
    drops the leading `1`, which for channels in `0..255` is exactly the
    6-digit zero-padded upper-case hex of `r·65536 + g·256 + b`. -/
def rgbToHex (color : Rgb) : String :=
  let r := (jround (color.r * 255)).toNat
  let g := (jround (color.g * 255)).toNat
  let b := (jround (color.b * 255)).toNat
  "#" ++ String.mk (hexDigitsAux 6 (r * 65536 + g * 256 + b))

/-- A fill or stroke paint: its `type` tag, its `visible` flag (a paint
    with no `visible` property is modelled as `visible := true`, matching
    the source's `f.visible !== false` test), and its colour. -/
structure Paint where
  ptype : String
  visible : Bool
  color : Rgb
deriving DecidableEq, Repr

/-- A resolved font name. -/
structure FontName where
  family : String
  style : String
deriving DecidableEq, Repr

/-- The attributes of one scene node (see the header for the conventions
    on the optional fields). -/
structure NodeAttrs where
  ntype : String
  name : String
  visible : Bool
  fills : Option (List Paint)
  strokes : Option (List Paint)
  cornerRadius : Option ℚ
  padding : Option (ℚ × ℚ × ℚ × ℚ)
  fontName : Option FontName
  fontSize : ℚ
  width : ℚ
  height : ℚ

/-- A scene node: attributes plus children. -/
inductive Node where
  | mk (attrs : NodeAttrs) (children : List Node)

/-- The attribute record of a node. -/
def Node.attrs : Node → NodeAttrs
  | .mk a _ => a

/-- The children of a node. -/
def Node.children : Node → List Node
  | .mk _ cs => cs

mutual

/-- `collectAllNodes` (src/code.ts:26): the node plus all of its visible
    descendants, in depth-first preorder; an invisible node contributes
    neither itself nor its subtree. -/
def collectAllNodes : Node → List Node
  | .mk a cs => if a.visible then .mk a cs :: collectAllNodesList cs else []

/-- `collectAllNodes` mapped over a list of roots, concatenated in order
    (the extractor's outer loop over baseline components). -/
def collectAllNodesList : List Node → List Node
  | [] => []
  | n :: ns => collectAllNodes n ++ collectAllNodesList ns

end

/-- One entry of `COMPONENT_TYPES` (src/code.ts:17). -/
structure ComponentType where
  name : String
  nodeTypes : List String
  namePatterns : List String

/-- The fixed component-type table (src/code.ts:17). -/
def COMPONENT_TYPES : List ComponentType := [
  { name := "Input Field", nodeTypes := ["FRAME", "RECTANGLE", "TEXT"],
    namePatterns := ["input", "field", "text field", "textarea"] },
  { name := "Button", nodeTypes := ["INSTANCE", "FRAME", "RECTANGLE", "TEXT"],
    namePatterns := ["button", "btn", "cta"] },
  { name := "Icon", nodeTypes := ["VECTOR", "FRAME", "INSTANCE"],
    namePatterns := ["icon", "glyph", "symbol"] },
  { name := "Card", nodeTypes := ["FRAME", "COMPONENT", "INSTANCE"],
    namePatterns := ["card", "tile", "container"] },
  { name := "Typography", nodeTypes := ["TEXT"],
    namePatterns := ["text", "heading", "title", "label", "paragraph"] }]

/-- `detectComponentType` (src/code.ts:40): first table entry whose node
    types contain the node's type tag and one of whose lower-cased name
    patterns occurs in the node's lower-cased name; else `"Unknown"`. -/
def detectComponentType (node : Node) : String :=
  match COMPONENT_TYPES.find? (fun t =>
      t.nodeTypes.contains node.attrs.ntype &&
      t.namePatterns.any (fun p =>
        subListB (strLower p).data (strLower node.attrs.name).data)) with
  | some t => t.name
  | none => "Unknown"

mutual

/-- `getComponentsOfType` (src/code.ts:65): all visible nodes of the
    subtree whose detected type equals `ctype` (`none` keeps every
    visible node), in depth-first preorder. -/
def getComponentsOfType (root : Node) (ctype : Option String) : List Node :=
  match root with
  | .mk a cs =>
    if a.visible then
      (match ctype with
       | none => [Node.mk a cs]
       | some t => if detectComponentType (.mk a cs) == t then [Node.mk a cs] else []) ++
      getComponentsOfTypeList cs ctype
    else []

/-- `getComponentsOfType` over a list of children, concatenated. -/
def getComponentsOfTypeList : List Node → Option String → List Node
  | [], _ => []
  | n :: ns, ctype => getComponentsOfType n ctype ++ getComponentsOfTypeList ns ctype

end

/-- One typography signature `{family, style, size}`. -/
structure TypoSig where
  family : String
  style : String
  size : ℚ
deriving DecidableEq, Repr

/-- A `{min, max, avg}` aggregate as the source builds it:
    `min`/`max` via `Math.min(...)`/`Math.max(...)` (so `±Infinity` on an
    empty list) and `avg` via `sum / length || 0` (so `0` on an empty
    list, where `0/0 = NaN` is collapsed by `|| 0`). -/
structure Range where
  min : JsNum
  max : JsNum
  avg : ℚ
deriving DecidableEq, Repr

/-- Build a `Range` from an observation list, as the source does. -/
def mkRange (xs : List ℚ) : Range :=
  { min := jsMinList xs
    max := jsMaxList xs
    avg := if xs.isEmpty then 0 else xs.sum / xs.length }

/-- The Pattern Summary (the extractor's return object).  `components` is
    the `patterns.components` property attached by the scan handler for
    component-match mode; the source reads it with `?? []`, so a summary
    without the property is modelled by `components := []`. -/
structure PatternSummary where
  colorPalette : List String
  cornerRadiusRange : Range
  typographyStyles : List TypoSig
  spacingValues : Range
  components : List Node

/-- The solid-fill hex colours contributed by one node, in order. -/
def nodeSolidHexList (n : Node) : List String :=
  match n.attrs.fills with
  | some fs => (fs.filter (fun f => f.ptype == "SOLID")).map (fun f => rgbToHex f.color)
  | none => []

/-- The four padding values contributed by one node (the source pushes all
    four sides whenever `paddingLeft` exists). -/
def padList (n : Node) : List ℚ :=
  match n.attrs.padding with
  | some (l, r, t, b) => [l, r, t, b]
  | none => []

/-- `extractStylePatterns` (src/code.ts:80): walk every visible node of
    every component subtree; colours and typography signatures are
    collected into JavaScript `Set`s (first-occurrence order, duplicates
    collapsed), corner radii and padding into plain lists. -/
def extractStylePatterns (components : List Node) : PatternSummary :=
  let nodes := collectAllNodesList components
  { colorPalette := nodes.foldl (fun acc n => (nodeSolidHexList n).foldl addUnique acc) []
    cornerRadiusRange := mkRange (nodes.filterMap (fun n => n.attrs.cornerRadius))
    typographyStyles := nodes.foldl (fun acc n =>
        if n.attrs.ntype == "TEXT" then
          match n.attrs.fontName with
          | some fn => addUnique acc { family := fn.family, style := fn.style, size := n.attrs.fontSize }
          | none => acc
        else acc) []
    spacingValues := mkRange (nodes.flatMap padList)
    components := [] }

/-- The target's resolved solid-fill hex colours, with multiplicity, in
    traversal order (src/code.ts:172-176). -/
def solidHexes (nodes : List Node) : List String :=
  nodes.flatMap nodeSolidHexList

/-- Colour score (src/code.ts:177-179): neutral `50` when the target has
    no solid fills, else the in-palette fraction scaled to `100`. -/
def colorScoreOf (palette : List String) (nodes : List Node) : ℚ :=
  let fills := solidHexes nodes
  if fills.length = 0 then 50
  else ((fills.filter (fun c => palette.contains c)).length : ℚ) / (fills.length : ℚ) * 100

/-- `node.fills.some(f => f.visible !== false)` guarded by the `in` and
    `Array.isArray` checks (src/code.ts:190-191). -/
def hasVisibleFills (n : Node) : Bool :=
  match n.attrs.fills with
  | some fs => fs.any (fun f => f.visible)
  | none => false

/-- Same for strokes (src/code.ts:192-193). -/
def hasVisibleStrokes (n : Node) : Bool :=
  match n.attrs.strokes with
  | some fs => fs.any (fun f => f.visible)
  | none => false

/-- The visual-container filter (src/code.ts:183-197): a corner-radius
    attribute plus at least one visible fill or stroke. -/
def isVisualContainer (n : Node) : Bool :=
  n.attrs.cornerRadius.isSome && (hasVisibleFills n || hasVisibleStrokes n)

/-- `(n.width || 0) * (n.height || 0)` (src/code.ts:200-201). -/
def nodeArea (n : Node) : ℚ := n.attrs.width * n.attrs.height

/-- Stable insertion into a list sorted by descending area: the element
    goes after every earlier element of greater-or-equal area. -/
def insertByAreaDesc (x : Node) : List Node → List Node
  | [] => [x]
  | y :: ys => if nodeArea y < nodeArea x then x :: y :: ys else y :: insertByAreaDesc x ys

/-- The stable descending-by-area sort of `Array.prototype.sort` with the
    comparator `areaB - areaA` (src/code.ts:198-203). -/
def sortByAreaDesc (xs : List Node) : List Node :=
  xs.foldl (fun acc x => insertByAreaDesc x acc) []

/-- Shape score (src/code.ts:206-237): default `50` with no visual
    containers; otherwise only the largest-area container's radius is
    compared: `100` in range, else a graded decay from the pattern's
    average radius, floored at `0`. -/
def shapeScoreOf (rng : Range) (nodes : List Node) : JsNum :=
  match sortByAreaDesc (nodes.filter isVisualContainer) with
  | [] => .fin 50
  | primary :: _ =>
    let r : ℚ := primary.attrs.cornerRadius.getD 0
    if jsLe rng.min (.fin r) && jsLe (.fin r) rng.max then .fin 100
    else
      jsMax (.fin 0) (jsSub (.fin 100) (jsMul
        (jsDiv (.fin |r - rng.avg|)
          (jsMax (jsSub rng.max (.fin rng.avg)) (jsSub (.fin rng.avg) rng.min)))
        (.fin 100)))

/-- Typography score (src/code.ts:239-255): only the first text node in
    depth-first order is inspected; `60` for a family match among the
    pattern signatures, `+20` for a style match among those, `+20` for a
    size within `2` among those (the source accumulates `0/60/80/100`). -/
def typographyScoreOf (sigs : List TypoSig) (nodes : List Node) : ℚ :=
  match nodes.find? (fun n => n.attrs.ntype == "TEXT") with
  | none => 0
  | some t =>
    match t.attrs.fontName with
    | none => 0
    | some fn =>
      let famMatches := sigs.filter (fun s => s.family == fn.family)
      if famMatches.length = 0 then 0
      else
        let styleMatches := famMatches.filter (fun s => s.style == fn.style)
        if styleMatches.length = 0 then 60
        else if styleMatches.any (fun s => decide (|s.size - t.attrs.fontSize| ≤ 2)) then 100
        else 80

/-- Spacing score (src/code.ts:257-263): `0` when the target itself has no
    padding attribute, else the in-range fraction of its four paddings
    scaled to `100`. -/
def spacingScoreOf (rng : Range) (component : Node) : ℚ :=
  match component.attrs.padding with
  | none => 0
  | some (l, r, t, b) =>
    let pads := [l, r, t, b]
    ((pads.filter (fun x => jsLe rng.min (.fin x) && jsLe (.fin x) rng.max)).length : ℚ)
      / (pads.length : ℚ) * 100

/-- The score object returned by `calculateHarmony`. -/
structure HarmonyScore where
  colorScore : JsNum
  shapeScore : JsNum
  typographyScore : JsNum
  spacingScore : JsNum
  overallScore : JsNum
deriving DecidableEq, Repr

/-- The weighted overall score (src/code.ts:265): note it is computed from
    the UNROUNDED category scores, while the returned category fields are
    rounded separately. -/
def overallOf (color : ℚ) (shape : JsNum) (typo spacing : ℚ) : JsNum :=
  jsRound (jsAdd (jsAdd (jsAdd
    (jsMul (.fin color) (.fin (3/10)))
    (jsMul shape (.fin (3/10))))
    (jsMul (.fin typo) (.fin (1/4))))
    (jsMul (.fin spacing) (.fin (3/20))))

/-- `calculateHarmony(component, patterns, true)` — the baseline branch
    (src/code.ts:169-272), the Harmony Scorer proper. -/
def calculateHarmonyBaseline (component : Node) (patterns : PatternSummary) : HarmonyScore :=
  let allNodes := collectAllNodes component
  let colorScore := colorScoreOf patterns.colorPalette allNodes
  let shapeScore := shapeScoreOf patterns.cornerRadiusRange allNodes
  let typographyScore := typographyScoreOf patterns.typographyStyles allNodes
  let spacingScore := spacingScoreOf patterns.spacingValues component
  { colorScore := jsRound (.fin colorScore)
    shapeScore := jsRound shapeScore
    typographyScore := jsRound (.fin typographyScore)
    spacingScore := jsRound (.fin spacingScore)
    overallScore := overallOf colorScore shapeScore typographyScore spacingScore }

/-- `(t.fontName as FontName)` read without the `figma.mixed` guard
    (src/code.ts:306-307): an unresolvable font yields `undefined` fields,
    modelled by a placeholder record. -/
def fontNameUnchecked (n : Node) : FontName :=
  n.attrs.fontName.getD { family := "undefined", style := "undefined" }

/-- `extractPatternsFromSingleNode` (src/code.ts:277-325).  The closure
    captures the enclosing scorer's `allNodes` — the TARGET component's
    node list — and builds `cornerRadiusRange` from it, NOT from the
    candidate `node`'s subtree; we pass that captured list explicitly. -/
def extractPatternsFromSingleNode (allNodes : List Node) (node : Node) : PatternSummary :=
  { colorPalette := solidHexes (collectAllNodes node)
    cornerRadiusRange := mkRange (allNodes.filterMap (fun n => n.attrs.cornerRadius))
    typographyStyles := (collectAllNodes node).filter (fun n => n.attrs.ntype == "TEXT")
      |>.map (fun t => { family := (fontNameUnchecked t).family
                         style := (fontNameUnchecked t).style
                         size := t.attrs.fontSize })
    spacingValues := mkRange ((collectAllNodes node).flatMap padList)
    components := [] }

/-- The all-zero score returned when component-match mode has no
    candidates (src/code.ts:337-343). -/
def zeroScore : HarmonyScore :=
  { colorScore := .fin 0, shapeScore := .fin 0, typographyScore := .fin 0,
    spacingScore := .fin 0, overallScore := .fin 0 }

/-- `calculateHarmony` (src/code.ts:158-345).  `baselineMode = true` is the
    scorer above; `baselineMode = false` loops over `patterns.components`,
    scores the component against each candidate's individually extracted
    summary (in baseline mode) and keeps the strictly best overall score,
    defaulting to the all-zero score. -/
def calculateHarmony (component : Node) (patterns : PatternSummary) (baselineMode : Bool) :
    HarmonyScore :=
  if baselineMode then calculateHarmonyBaseline component patterns
  else
    let allNodes := collectAllNodes component
    let best := patterns.components.foldl (fun bestScore node =>
      let score := calculateHarmonyBaseline component (extractPatternsFromSingleNode allNodes node)
      match bestScore with
      | none => some score
      | some b => if jsLt b.overallScore score.overallScore then some score else some b) none
    best.getD zeroScore

/-- The outcome posted back to the UI by the `run-scan` handler. -/
inductive ScanResult where
  | failure (message : String)
  | success (componentType : String) (patterns : PatternSummary) (harmony : HarmonyScore)

/-- The `run-scan` handler (src/code.ts:384-424) with both nodes set, as a
    function of the direction flag `useReferenceAsBaseline`.  Flag `true`
    ("baseline mode"): the reference is the pattern source, ALL its visible
    nodes are pooled, and the control node is scored once against the
    aggregate summary.  Flag `false` ("component match"): the control's
    nodes of the reference's detected type are the candidates, attached as
    `components`, and the reference is scored best-of-all against them. -/
def runScan (controlNode referenceNode : Node) (useReferenceAsBaseline : Bool) : ScanResult :=
  let referenceType := detectComponentType referenceNode
  let patternSource := if useReferenceAsBaseline then referenceNode else controlNode
  let testTarget := if useReferenceAsBaseline then controlNode else referenceNode
  let patternComponents :=
    if useReferenceAsBaseline then getComponentsOfType patternSource none
    else getComponentsOfType patternSource (some referenceType)
  if patternComponents.length = 0 then
    .failure ("No " ++ referenceType ++ " components found in the selected baseline.")
  else
    let stylePatterns := extractStylePatterns patternComponents
    let stylePatterns :=
      if useReferenceAsBaseline then stylePatterns
      else { stylePatterns with components := patternComponents }
    .success referenceType stylePatterns (calculateHarmony testTarget stylePatterns useReferenceAsBaseline)

/-- A default attribute record for building concrete test nodes. -/
def baseAttrs : NodeAttrs :=
  { ntype := "FRAME", name := "node", visible := true, fills := none, strokes := none,
    cornerRadius := none, padding := none, fontName := none, fontSize := 0,
    width := 0, height := 0 }

/-- A solid paint of the given colour. -/
def solidPaint (c : Rgb) : Paint := { ptype := "SOLID", visible := true, color := c }

/-- White `#FFFFFF`. -/
def whitePaint : Paint := solidPaint ⟨1, 1, 1⟩

/-- Black `#000000`. -/
def blackPaint : Paint := solidPaint ⟨0, 0, 0⟩

/-- Blue `#123456`. -/
def bluePaint : Paint := solidPaint ⟨18/255, 52/255, 86/255⟩

/-- C1 counterexample target: a filled rectangle with no corner-radius
    attribute anywhere in its subtree. -/
def tgtC1 : Node :=
  .mk { baseAttrs with ntype := "RECTANGLE", name := "box", fills := some [whitePaint] } []

/-- A pattern summary with radius range `[0,10]`, average `5`. -/
def patC1 : PatternSummary :=
  { colorPalette := [], cornerRadiusRange := ⟨.fin 0, .fin 10, 5⟩,
    typographyStyles := [], spacingValues := ⟨.fin 0, .fin 0, 0⟩, components := [] }

/-- C1 witness target: one visual container with radius `6`. -/
def tgtC1w : Node :=
  .mk { baseAttrs with ntype := "RECTANGLE", name := "box", fills := some [whitePaint], cornerRadius := some 6, width := 10, height := 10 } []

/-- A pattern summary with radius range `[4,8]`, average `6`. -/
def patC1w : PatternSummary :=
  { colorPalette := [], cornerRadiusRange := ⟨.fin 4, .fin 8, 6⟩,
    typographyStyles := [], spacingValues := ⟨.fin 0, .fin 0, 0⟩, components := [] }

/-- A white button component for the C2/C3 baselines. -/
def btnWhite : Node :=
  .mk { baseAttrs with name := "button one", fills := some [whitePaint] } []

/-- A black button component for the C2/C3 baselines. -/
def btnBlack : Node :=
  .mk { baseAttrs with name := "button two", fills := some [blackPaint] } []

/-- C2 control (design library): a frame holding the two buttons. -/
def ctrlC2 : Node := .mk { baseAttrs with name := "lib" } [btnWhite, btnBlack]

/-- C2 reference (target): a button with one white and one black fill. -/
def refC2 : Node :=
  .mk { baseAttrs with name := "button main", fills := some [whitePaint, blackPaint] } []

/-- C3 pattern: the aggregate summary of the two baseline buttons
    (palette `{#FFFFFF, #000000}`). -/
def patC3 : PatternSummary := extractStylePatterns [btnWhite, btnBlack]

/-- C3 target: fills `[#FFFFFF, #FFFFFF, #123456]`. -/
def tgtC3 : Node :=
  .mk { baseAttrs with name := "button main", fills := some [whitePaint, whitePaint, bluePaint] } []

/-- C4 witness: a text node `Inter Bold 20`. -/
def textC4 : Node :=
  .mk { baseAttrs with ntype := "TEXT", name := "label", fontName := some ⟨"Inter", "Bold"⟩, fontSize := 20 } []

/-- C4 witness target containing the text node. -/
def tgtC4 : Node := .mk { baseAttrs with name := "button main" } [textC4]

/-- C4 witness pattern: one signature `Inter Bold 30` (family and style
    match, size differs by more than 2). -/
def patC4 : PatternSummary :=
  { colorPalette := [], cornerRadiusRange := ⟨.fin 0, .fin 0, 0⟩,
    typographyStyles := [⟨"Inter", "Bold", 30⟩],
    spacingValues := ⟨.fin 0, .fin 0, 0⟩, components := [] }

/-- C5 witness target: paddings `(4, 4, 4, 12)`. -/
def tgtC5 : Node :=
  .mk { baseAttrs with name := "card x", padding := some (4, 4, 4, 12) } []

/-- C5 witness pattern: spacing range `[0,10]`. -/
def patC5 : PatternSummary :=
  { colorPalette := [], cornerRadiusRange := ⟨.fin 0, .fin 0, 0⟩,
    typographyStyles := [], spacingValues := ⟨.fin 0, .fin 10, 5⟩, components := [] }

/-- A child rectangle with a single solid fill (C6 helper). -/
def rectFill (p : Paint) : Node :=
  .mk { baseAttrs with ntype := "RECTANGLE", name := "r", fills := some [p] } []

/-- C6 counterexample target: 13 filled children, 5 of them white. -/
def tgtC6 : Node :=
  .mk { baseAttrs with name := "box" }
    [rectFill whitePaint, rectFill whitePaint, rectFill whitePaint, rectFill whitePaint,
     rectFill whitePaint, rectFill blackPaint, rectFill blackPaint, rectFill blackPaint,
     rectFill blackPaint, rectFill blackPaint, rectFill blackPaint, rectFill blackPaint,
     rectFill blackPaint]

/-- C6 pattern: palette `{#FFFFFF}` only. -/
def patC6 : PatternSummary :=
  { colorPalette := ["#FFFFFF"], cornerRadiusRange := ⟨.fin 0, .fin 0, 0⟩,
    typographyStyles := [], spacingValues := ⟨.fin 0, .fin 0, 0⟩, components := [] }

/-- C6 boundary target scoring `(0,0,0,0)`. -/
def tgtC6zero : Node :=
  .mk { baseAttrs with name := "z", padding := some (5, 5, 5, 5) }
    [.mk { baseAttrs with ntype := "RECTANGLE", name := "r", fills := some [blackPaint], cornerRadius := some 4 } []]

/-- C6 boundary pattern for the `(0,0,0,0)` case. -/
def patC6zero : PatternSummary :=
  { colorPalette := ["#FFFFFF"], cornerRadiusRange := ⟨.fin 0, .fin 0, 0⟩,
    typographyStyles := [], spacingValues := ⟨.fin 0, .fin 0, 0⟩, components := [] }

/-- C6 boundary target scoring `(100,100,100,100)`. -/
def tgtC6full : Node :=
  .mk { baseAttrs with name := "f", padding := some (4, 4, 4, 4) }
    [.mk { baseAttrs with ntype := "RECTANGLE", name := "r", fills := some [whitePaint], cornerRadius := some 6, width := 10, height := 10 } [],
     .mk { baseAttrs with ntype := "TEXT", name := "t", fontName := some ⟨"Inter", "Regular"⟩, fontSize := 16 } []]

/-- C6 boundary pattern for the `(100,100,100,100)` case. -/
def patC6full : PatternSummary :=
  { colorPalette := ["#FFFFFF"], cornerRadiusRange := ⟨.fin 4, .fin 8, 6⟩,
    typographyStyles := [⟨"Inter", "Regular", 16⟩],
    spacingValues := ⟨.fin 0, .fin 10, 5⟩, components := [] }

/-- C7 reference: a vector named "icon star", classified "Icon". -/
def refC7 : Node := .mk { baseAttrs with ntype := "VECTOR", name := "icon star" } []

/-- C7 control: a library containing no Icon-classified node. -/
def ctrlC7 : Node :=
  .mk { baseAttrs with name := "lib" }
    [.mk { baseAttrs with ntype := "RECTANGLE", name := "box" } []]

/-- C8 counterexample baseline node: no corner radius, no padding. -/
def nC8 : Node :=
  .mk { baseAttrs with ntype := "RECTANGLE", name := "plain", fills := some [whitePaint] } []

/-- C8 witness baseline node. -/
def nC8w : Node := .mk { baseAttrs with ntype := "ELLIPSE", name := "oval" } []

/-- C9 witness attributes: corner radius `7`. -/
def attrsC9 : NodeAttrs :=
  { baseAttrs with ntype := "RECTANGLE", name := "chip", cornerRadius := some 7 }

/-- C10 target: its own subtree has the single radius `3`. -/
def tgtC10 : Node := .mk { baseAttrs with name := "button main", cornerRadius := some 3 } []

/-- C10 candidate with radius `9`. -/
def candC10a : Node := .mk { baseAttrs with name := "button a", cornerRadius := some 9 } []

/-- C10 candidate with radius `100`. -/
def candC10b : Node := .mk { baseAttrs with name := "button b", cornerRadius := some 100 } []

/-- A `Range` as the extractor can actually produce it: either the
    empty-observation sentinel `{+∞, -∞, 0}` or finite bounds bracketing
    the average (`mkRange_wf` below shows every `mkRange` output is such). -/
def Range.wf (r : Range) : Prop :=
  (r.min = .posInf ∧ r.max = .negInf ∧ r.avg = 0) ∨
  (∃ a b : ℚ, r.min = .fin a ∧ r.max = .fin b ∧ a ≤ r.avg ∧ r.avg ≤ b)

/-- The computable floor agrees with the mathematical floor. -/
lemma jfloor_eq (q : ℚ) : jfloor q = ⌊q⌋ := by rw [jfloor, Rat.floor_def]

/-- `jsRound` on a finite value is the mathematical half-up rounding. -/
lemma jsRound_fin (q : ℚ) : jsRound (.fin q) = .fin ((⌊q + 1/2⌋ : ℤ) : ℚ) := by
  show JsNum.fin ((jfloor (q + 1/2) : ℤ) : ℚ) = _
  rw [jfloor_eq]

/-- Rounding a rational in `[0,100]` yields an integer in `[0,100]`. -/
lemma jsRound_bounds {q : ℚ} (h0 : 0 ≤ q) (h1 : q ≤ 100) :
    ∃ n : ℤ, jsRound (.fin q) = .fin (n : ℚ) ∧ 0 ≤ n ∧ n ≤ 100 := by
  refine ⟨⌊q + 1/2⌋, jsRound_fin q, ?_, ?_⟩
  · exact Int.le_floor.mpr (by push_cast; linarith)
  · have h2 : ⌊q + 1/2⌋ ≤ ⌊(201/2 : ℚ)⌋ := Int.floor_le_floor (by linarith)
    have h3 : ⌊(201/2 : ℚ)⌋ = 100 := by norm_num
    omega

/-- The colour score field of the baseline scorer. -/
lemma calcB_color (c : Node) (p : PatternSummary) :
    (calculateHarmonyBaseline c p).colorScore =
      jsRound (.fin (colorScoreOf p.colorPalette (collectAllNodes c))) := rfl

/-- The shape score field of the baseline scorer. -/
lemma calcB_shape (c : Node) (p : PatternSummary) :
    (calculateHarmonyBaseline c p).shapeScore =
      jsRound (shapeScoreOf p.cornerRadiusRange (collectAllNodes c)) := rfl

/-- The typography score field of the baseline scorer. -/
lemma calcB_typo (c : Node) (p : PatternSummary) :
    (calculateHarmonyBaseline c p).typographyScore =
      jsRound (.fin (typographyScoreOf p.typographyStyles (collectAllNodes c))) := rfl

/-- The spacing score field of the baseline scorer. -/
lemma calcB_spacing (c : Node) (p : PatternSummary) :
    (calculateHarmonyBaseline c p).spacingScore =
      jsRound (.fin (spacingScoreOf p.spacingValues c)) := rfl

/-- The overall score field of the baseline scorer is the weighted sum of
    the UNROUNDED category scores, rounded once. -/
lemma calcB_overall (c : Node) (p : PatternSummary) :
    (calculateHarmonyBaseline c p).overallScore =
      overallOf (colorScoreOf p.colorPalette (collectAllNodes c))
        (shapeScoreOf p.cornerRadiusRange (collectAllNodes c))
        (typographyScoreOf p.typographyStyles (collectAllNodes c))
        (spacingScoreOf p.spacingValues c) := rfl

/-- The unrounded colour score lies in `[0, 100]`. -/
lemma colorScoreOf_bounds (p : List String) (ns : List Node) :
    0 ≤ colorScoreOf p ns ∧ colorScoreOf p ns ≤ 100 := by
  unfold colorScoreOf
  by_cases h : (solidHexes ns).length = 0
  · simp only [h, if_pos]
    norm_num
  · simp only [h, if_neg, if_false]
    have hlen : 0 < ((solidHexes ns).length : ℚ) := by
      have := Nat.pos_of_ne_zero h
      exact_mod_cast this
    have hle : ((solidHexes ns).filter (fun c => p.contains c)).length ≤ (solidHexes ns).length :=
      List.length_filter_le _ _
    have hle' : (((solidHexes ns).filter (fun c => p.contains c)).length : ℚ) ≤
        ((solidHexes ns).length : ℚ) := by exact_mod_cast hle
    constructor
    · positivity
    · rw [div_mul_eq_mul_div, div_le_iff hlen]
      nlinarith

/-- The unrounded typography score is one of `0`, `60`, `80`, `100`. -/
lemma typographyScoreOf_cases (sigs : List TypoSig) (ns : List Node) :
    typographyScoreOf sigs ns = 0 ∨ typographyScoreOf sigs ns = 60 ∨
    typographyScoreOf sigs ns = 80 ∨ typographyScoreOf sigs ns = 100 := by
  unfold typographyScoreOf
  rcases hfind : ns.find? (fun n => n.attrs.ntype == "TEXT") with _ | t <;> rw [hfind]
  · exact Or.inl rfl
  · dsimp only
    rcases hfn : t.attrs.fontName with _ | fn
    · exact Or.inl rfl
    · dsimp only
      split
      · exact Or.inl rfl
      · split
        · exact Or.inr (Or.inl rfl)
        · split
          · exact Or.inr (Or.inr (Or.inr rfl))
          · exact Or.inr (Or.inr (Or.inl rfl))

/-- The unrounded spacing score lies in `[0, 100]`. -/
lemma spacingScoreOf_bounds (rng : Range) (c : Node) :
    0 ≤ spacingScoreOf rng c ∧ spacingScoreOf rng c ≤ 100 := by
  unfold spacingScoreOf
  cases hp : c.attrs.padding with
  | none => norm_num
  | some pads =>
    obtain ⟨l, r, t, b⟩ := pads
    dsimp only
    have hle : (([l, r, t, b].filter
        (fun x => jsLe rng.min (.fin x) && jsLe (.fin x) rng.max)).length) ≤ 4 :=
      List.length_filter_le _ _
    constructor
    · positivity
    · have hle' : ((([l, r, t, b].filter
          (fun x => jsLe rng.min (.fin x) && jsLe (.fin x) rng.max)).length) : ℚ) ≤ 4 := by
        exact_mod_cast hle
      rw [div_mul_eq_mul_div, div_le_iff (by norm_num : (0:ℚ) < ([l,r,t,b].length : ℚ))]
      simp only [List.length_cons, List.length_nil]
      push_cast
      nlinarith

/-- Finite-finite addition. -/
@[simp] lemma jsAdd_fin (a b : ℚ) : jsAdd (.fin a) (.fin b) = .fin (a + b) := rfl

/-- Finite-finite multiplication. -/
@[simp] lemma jsMul_fin (a b : ℚ) : jsMul (.fin a) (.fin b) = .fin (a * b) := rfl

/-- Finite-finite subtraction. -/
@[simp] lemma jsSub_fin (a b : ℚ) : jsSub (.fin a) (.fin b) = .fin (a - b) := by
  show JsNum.fin (a + -b) = _
  rw [sub_eq_add_neg]

/-- Finite-finite comparison. -/
@[simp] lemma jsLe_fin (a b : ℚ) : jsLe (.fin a) (.fin b) = decide (a ≤ b) := rfl

/-- Finite-finite strict comparison. -/
@[simp] lemma jsLt_fin (a b : ℚ) : jsLt (.fin a) (.fin b) = decide (a < b) := rfl

/-- Finite-finite `Math.max`. -/
@[simp] lemma jsMax_fin (a b : ℚ) : jsMax (.fin a) (.fin b) = .fin (max a b) := by
  show (if jsLt (.fin a) (.fin b) then JsNum.fin b else .fin a) = _
  by_cases h : a < b
  · simp [h, max_eq_right h.le]
  · simp [h, max_eq_left (not_lt.mp h)]

/-- The running minimum is below its seed. -/
lemma foldl_min_le_init (a : ℚ) (l : List ℚ) : l.foldl min a ≤ a := by
  induction l generalizing a with
  | nil => exact le_refl a
  | cons x xs ih => exact le_trans (ih (min a x)) (min_le_left a x)

/-- The running minimum is below every member. -/
lemma foldl_min_le_mem (a : ℚ) (l : List ℚ) : ∀ y ∈ l, l.foldl min a ≤ y := by
  induction l generalizing a with
  | nil => intro y hy; cases hy
  | cons x xs ih =>
    intro y hy
    rcases List.mem_cons.mp hy with h | h
    · subst h
      exact le_trans (foldl_min_le_init (min a y) xs) (min_le_right a y)
    · exact ih (min a x) y h

/-- The running maximum is above its seed. -/
lemma le_foldl_max_init (a : ℚ) (l : List ℚ) : a ≤ l.foldl max a := by
  induction l generalizing a with
  | nil => exact le_refl a
  | cons x xs ih => exact le_trans (le_max_left a x) (ih (max a x))

/-- The running maximum is above every member. -/
lemma mem_le_foldl_max (a : ℚ) (l : List ℚ) : ∀ y ∈ l, y ≤ l.foldl max a := by
  induction l generalizing a with
  | nil => intro y hy; cases hy
  | cons x xs ih =>
    intro y hy
    rcases List.mem_cons.mp hy with h | h
    · subst h
      exact le_trans (le_max_right a y) (le_foldl_max_init (max a y) xs)
    · exact ih (max a x) y h

/-- A list of elements above `m` sums to at least `length · m`. -/
lemma length_mul_le_sum (l : List ℚ) (m : ℚ) (h : ∀ y ∈ l, m ≤ y) :
    (l.length : ℚ) * m ≤ l.sum := by
  induction l with
  | nil => simp
  | cons x xs ih =>
    have h1 : m ≤ x := h x (List.mem_cons_self x xs)
    have h2 : (xs.length : ℚ) * m ≤ xs.sum :=
      ih (fun y hy => h y (List.mem_cons_of_mem _ hy))
    simp only [List.sum_cons, List.length_cons]
    push_cast
    nlinarith

/-- A list of elements below `M` sums to at most `length · M`. -/
lemma sum_le_length_mul (l : List ℚ) (M : ℚ) (h : ∀ y ∈ l, y ≤ M) :
    l.sum ≤ (l.length : ℚ) * M := by
  induction l with
  | nil => simp
  | cons x xs ih =>
    have h1 : x ≤ M := h x (List.mem_cons_self x xs)
    have h2 : xs.sum ≤ (xs.length : ℚ) * M :=
      ih (fun y hy => h y (List.mem_cons_of_mem _ hy))
    simp only [List.sum_cons, List.length_cons]
    push_cast
    nlinarith

/-- Every range the source builds from an observation list is either the
    empty sentinel or has finite bounds bracketing the average. -/
lemma mkRange_wf (xs : List ℚ) : (mkRange xs).wf := by
  cases xs with
  | nil => exact Or.inl ⟨rfl, rfl, rfl⟩
  | cons x l =>
    have havg : (mkRange (x :: l)).avg = (x :: l).sum / (((x :: l).length : ℕ) : ℚ) := by
      simp [mkRange]
    have hlen : (0 : ℚ) < (((x :: l).length : ℕ) : ℚ) := by
      have := Nat.succ_pos l.length
      exact_mod_cast this
    refine Or.inr ⟨l.foldl min x, l.foldl max x, rfl, rfl, ?_, ?_⟩
    · have hmem : ∀ y ∈ x :: l, l.foldl min x ≤ y := by
        intro y hy
        rcases List.mem_cons.mp hy with h | h
        · subst h; exact foldl_min_le_init y l
        · exact foldl_min_le_mem x l y h
      have hsum := length_mul_le_sum (x :: l) (l.foldl min x) hmem
      rw [havg, le_div_iff hlen]
      linarith [hsum]
    · have hmem : ∀ y ∈ x :: l, y ≤ l.foldl max x := by
        intro y hy
        rcases List.mem_cons.mp hy with h | h
        · subst h; exact le_foldl_max_init y l
        · exact mem_le_foldl_max x l y h
      have hsum := sum_le_length_mul (x :: l) (l.foldl max x) hmem
      rw [havg, div_le_iff hlen]
      linarith [hsum]

/-- Finite-finite division, unfolded. -/
@[simp] lemma jsDiv_fin (a b : ℚ) : jsDiv (.fin a) (.fin b) =
    if b = 0 then (if a = 0 then .nan else if 0 < a then .posInf else .negInf)
    else .fin (a / b) := rfl

/-- Division of a finite value by `-Infinity` is zero. -/
@[simp] lemma jsDiv_fin_negInf (a : ℚ) : jsDiv (.fin a) .negInf = .fin 0 := rfl

/-- Shape score when no visual container exists: the default `50`. -/
lemma shapeScoreOf_nil (rng : Range) (ns : List Node)
    (h : sortByAreaDesc (ns.filter isVisualContainer) = []) :
    shapeScoreOf rng ns = .fin 50 := by
  unfold shapeScoreOf
  rw [h]

/-- Shape score with a primary visual container: in-range gives `100`,
    otherwise the graded decay from the pattern average. -/
lemma shapeScoreOf_cons (rng : Range) (ns : List Node) (p : Node) (ps : List Node)
    (h : sortByAreaDesc (ns.filter isVisualContainer) = p :: ps) :
    shapeScoreOf rng ns =
      (if jsLe rng.min (.fin (p.attrs.cornerRadius.getD 0)) &&
          jsLe (.fin (p.attrs.cornerRadius.getD 0)) rng.max
       then .fin 100
       else jsMax (.fin 0) (jsSub (.fin 100) (jsMul
         (jsDiv (.fin |p.attrs.cornerRadius.getD 0 - rng.avg|)
           (jsMax (jsSub rng.max (.fin rng.avg)) (jsSub (.fin rng.avg) rng.min)))
         (.fin 100)))) := by
  unfold shapeScoreOf
  rw [h]

/-- With a well-formed pattern range the shape score is a finite value in
    `[0, 100]`. -/
lemma shapeScoreOf_wf (rng : Range) (ns : List Node) (hw : rng.wf) :
    ∃ q : ℚ, shapeScoreOf rng ns = .fin q ∧ 0 ≤ q ∧ q ≤ 100 := by
  rcases hsort : sortByAreaDesc (ns.filter isVisualContainer) with _ | ⟨p, ps⟩
  · exact ⟨50, shapeScoreOf_nil rng ns hsort, by norm_num, by norm_num⟩
  · rw [shapeScoreOf_cons rng ns p ps hsort]
    set r : ℚ := p.attrs.cornerRadius.getD 0 with hrdef
    by_cases hin : (jsLe rng.min (.fin r) && jsLe (.fin r) rng.max) = true
    · rw [if_pos hin]
      exact ⟨100, rfl, by norm_num, by norm_num⟩
    · rw [if_neg hin]
      rcases hw with ⟨h1, h2, h3⟩ | ⟨a, b, h1, h2, hab1, hab2⟩
      · rw [h1, h2, h3]
        refine ⟨100, ?_, by norm_num, by norm_num⟩
        have e1 : jsSub JsNum.negInf (.fin (0:ℚ)) = .negInf := rfl
        have e2 : jsSub (.fin (0:ℚ)) JsNum.posInf = .negInf := rfl
        have e3 : jsMax JsNum.negInf JsNum.negInf = .negInf := rfl
        rw [e1, e2, e3, jsDiv_fin_negInf, jsMul_fin, jsSub_fin, jsMax_fin]
        norm_num
      · rw [h1, h2] at hin ⊢
        rw [jsSub_fin, jsSub_fin, jsMax_fin]
        set M : ℚ := max (b - rng.avg) (rng.avg - a) with hM
        have hM0 : 0 ≤ M := le_trans (by linarith) (le_max_left (b - rng.avg) (rng.avg - a))
        by_cases hMz : M = 0
        · have hba : b - rng.avg = 0 :=
            le_antisymm (hMz ▸ le_max_left (b - rng.avg) (rng.avg - a)) (by linarith)
          have haa : rng.avg - a = 0 :=
            le_antisymm (hMz ▸ le_max_right (b - rng.avg) (rng.avg - a)) (by linarith)
          have hrne : r ≠ rng.avg := by
            intro hcon
            apply hin
            simp only [jsLe_fin, Bool.and_eq_true, decide_eq_true_eq]
            constructor <;> linarith
          have hdiffpos : 0 < |r - rng.avg| := abs_pos.mpr (sub_ne_zero.mpr hrne)
          refine ⟨0, ?_, le_refl 0, by norm_num⟩
          rw [jsDiv_fin, if_pos hMz, if_neg (ne_of_gt hdiffpos), if_pos hdiffpos]
          have e4 : jsMul JsNum.posInf (.fin (100:ℚ)) = .posInf := by
            show (if (100:ℚ) = 0 then JsNum.nan
                  else if 0 < (100:ℚ) then JsNum.posInf else JsNum.negInf) = JsNum.posInf
            norm_num
          have e5 : jsSub (.fin (100:ℚ)) JsNum.posInf = .negInf := rfl
          have e6 : jsMax (.fin (0:ℚ)) JsNum.negInf = .fin 0 := rfl
          rw [e4, e5, e6]
        · have hMpos : 0 < M := lt_of_le_of_ne hM0 (Ne.symm hMz)
          rw [jsDiv_fin, if_neg hMz, jsMul_fin, jsSub_fin, jsMax_fin]
          refine ⟨max 0 (100 - |r - rng.avg| / M * 100), rfl,
            le_max_left 0 _, max_le (by norm_num) ?_⟩
          have hx : 0 ≤ |r - rng.avg| / M * 100 := by positivity
          linarith

/-- `any` over a `filter` is `any` of the conjunction. -/
lemma any_filter_eq {α : Type} (l : List α) (p q : α → Bool) :
    (l.filter p).any q = l.any (fun x => p x && q x) := by
  induction l with
  | nil => rfl
  | cons x xs ih =>
    by_cases h : p x = true
    · simp [List.filter_cons, h, ih]
    · simp [List.filter_cons, h, ih]

/-- A filter has length zero exactly when no element passes. -/
lemma filter_length_zero_iff {α : Type} (l : List α) (p : α → Bool) :
    ((l.filter p).length = 0) ↔ (l.any p = false) := by
  rw [List.length_eq_zero, List.filter_eq_nil, List.any_eq_false]

/-- The empty needle occurs in every haystack. -/
lemma subListB_nil_needle (l : List Char) : subListB [] l = true := by
  cases l <;> rfl

/-- A list is a Boolean prefix of itself followed by anything. -/
lemma prefixB_append (l r : List Char) : prefixB l (l ++ r) = true := by
  induction l with
  | nil => rfl
  | cons a as ih => simp [prefixB, ih]

/-- A needle occurs in any haystack of the form `pre ++ needle ++ post`. -/
lemma subListB_append (pre n post : List Char) : subListB n (pre ++ (n ++ post)) = true := by
  induction pre with
  | nil =>
    simp only [List.nil_append]
    cases n with
    | nil => exact subListB_nil_needle post
    | cons c cs =>
      have h1 := prefixB_append (c :: cs) post
      rw [List.cons_append] at h1
      simp [subListB, h1]
  | cons p ps ih => simp [subListB, ih]

/-- `calculateHarmony` in baseline mode is the baseline scorer. -/
lemma calculateHarmony_true (c : Node) (p : PatternSummary) :
    calculateHarmony c p true = calculateHarmonyBaseline c p := rfl

/-- `calculateHarmony` in component-match mode scores the component in
    baseline mode against each candidate's individually extracted summary
    and keeps the strictly best overall score, defaulting to zeros. -/
lemma calculateHarmony_false (c : Node) (p : PatternSummary) :
    calculateHarmony c p false =
      (p.components.foldl (fun bestScore node =>
        let score := calculateHarmonyBaseline c
          (extractPatternsFromSingleNode (collectAllNodes c) node)
        match bestScore with
        | none => some score
        | some b => if jsLt b.overallScore score.overallScore then some score else some b)
        none).getD zeroScore := rfl

/-- The component-match scan with an empty type-filtered baseline fails
    with the type name in the message. -/
lemma runScan_false_empty (control reference : Node)
    (h : getComponentsOfType control (some (detectComponentType reference)) = []) :
    runScan control reference false =
      .failure ("No " ++ detectComponentType reference ++
        " components found in the selected baseline.") := by
  unfold runScan
  simp only [Bool.false_eq_true, if_false, h, List.length_nil, if_pos]

/-- The component-match scan with a nonempty type-filtered baseline
    succeeds, attaching the candidates and scoring best-of-all. -/
lemma runScan_false_nonempty (control reference : Node)
    (h : getComponentsOfType control (some (detectComponentType reference)) ≠ []) :
    runScan control reference false =
      .success (detectComponentType reference)
        { extractStylePatterns (getComponentsOfType control (some (detectComponentType reference))) with
            components := getComponentsOfType control (some (detectComponentType reference)) }
        (calculateHarmony reference
          { extractStylePatterns (getComponentsOfType control (some (detectComponentType reference))) with
              components := getComponentsOfType control (some (detectComponentType reference)) }
          false) := by
  unfold runScan
  have hlen : ¬((getComponentsOfType control (some (detectComponentType reference))).length = 0) := by
    simpa [List.length_eq_zero] using h
  simp only [Bool.false_eq_true, if_false, hlen, if_neg]

/-- The baseline-mode scan with a nonempty pool succeeds, scoring the
    control node exactly once against the single aggregate summary. -/
lemma runScan_true_nonempty (control reference : Node)
    (h : getComponentsOfType reference none ≠ []) :
    runScan control reference true =
      .success (detectComponentType reference)
        (extractStylePatterns (getComponentsOfType reference none))
        (calculateHarmonyBaseline control
          (extractStylePatterns (getComponentsOfType reference none))) := by
  unfold runScan
  have hlen : ¬((getComponentsOfType reference none).length = 0) := by
    simpa [List.length_eq_zero] using h
  simp only [if_true, hlen, if_neg]
  rfl

/-- Rounding an integer value is the identity. -/
lemma jsRound_int (n : ℤ) : jsRound (.fin (n : ℚ)) = .fin (n : ℚ) := by
  rw [jsRound_fin]
  congr 1
  rw [add_comm, Int.floor_add_int]
  norm_num

/-- C9: extracting a Pattern Summary from a single-node baseline whose sole
    node is visible and has the numeric corner radius `R` yields
    `cornerRadiusRange = {min: R, max: R, avg: R}`. -/
theorem C9_roundtrip (a : NodeAttrs) (R : ℚ) (hv : a.visible = true)
    (hr : a.cornerRadius = some R) :
    (extractStylePatterns [Node.mk a []]).cornerRadiusRange =
      { min := .fin R, max := .fin R, avg := R } := by
  have hproj : (extractStylePatterns [Node.mk a []]).cornerRadiusRange =
      mkRange ((collectAllNodesList [Node.mk a []]).filterMap (fun n => n.attrs.cornerRadius)) := rfl
  have hcoll : collectAllNodesList [Node.mk a []] = [Node.mk a []] := by
    show collectAllNodes (Node.mk a []) ++ collectAllNodesList [] = [Node.mk a []]
    unfold collectAllNodes collectAllNodesList
    rw [hv]
    simp
  rw [hproj, hcoll]
  have hfm : ([Node.mk a []].filterMap (fun n => n.attrs.cornerRadius)) = [R] := by
    simp [List.filterMap_cons, Node.attrs, hr]
  rw [hfm]
  unfold mkRange jsMinList jsMaxList
  simp

/-- C9 witness: a visible rectangle with corner radius `7`. -/
theorem C9_roundtrip_witness :
    attrsC9.visible = true ∧ attrsC9.cornerRadius = some 7 ∧
    (extractStylePatterns [Node.mk attrsC9 []]).cornerRadiusRange =
      { min := .fin 7, max := .fin 7, avg := 7 } :=
  ⟨rfl, rfl, C9_roundtrip attrsC9 7 rfl rfl⟩

/-- C10: in component-match mode the summary built for a candidate carries
    a `cornerRadiusRange` computed from the TARGET's captured node list,
    so every candidate gets an identical range; concretely, candidates with
    own radii `9` and `100` both get the target's `{3, 3, 3}`. -/
theorem C10_target_radii (target c1 c2 : Node) :
    ((extractPatternsFromSingleNode (collectAllNodes target) c1).cornerRadiusRange =
      (extractPatternsFromSingleNode (collectAllNodes target) c2).cornerRadiusRange)
    ∧ ((extractPatternsFromSingleNode (collectAllNodes target) c1).cornerRadiusRange =
        mkRange ((collectAllNodes target).filterMap (fun n => n.attrs.cornerRadius)))
    ∧ (extractPatternsFromSingleNode (collectAllNodes tgtC10) candC10a).cornerRadiusRange =
        { min := .fin 3, max := .fin 3, avg := 3 }
    ∧ (extractPatternsFromSingleNode (collectAllNodes tgtC10) candC10b).cornerRadiusRange =
        { min := .fin 3, max := .fin 3, avg := 3 } :=
  ⟨rfl, rfl, by with_unfolding_all rfl, by with_unfolding_all rfl⟩

/-- C1 counterexample: a target whose visible subtree carries NO numeric
    corner radius scores shape `50`, not the claimed `0`. -/
theorem C1_counterexample :
    (collectAllNodes tgtC1).filterMap (fun n => n.attrs.cornerRadius) = []
    ∧ (calculateHarmonyBaseline tgtC1 patC1).shapeScore = .fin 50 :=
  ⟨by with_unfolding_all rfl, by with_unfolding_all rfl⟩

/-- C1 amended: the shape score does not pool all radii; with no visual
    container (corner-radius attribute plus a visible fill or stroke) it is
    `50`, and otherwise only the largest-area container's radius counts:
    `100` in `[patternMin, patternMax]`, else the graded decay
    `max(0, 100 - 100·|r - avg| / max(max - avg, avg - min))`. -/
theorem C1_amended_shape (tgt : Node) (pat : PatternSummary) :
    (sortByAreaDesc ((collectAllNodes tgt).filter isVisualContainer) = [] →
      (calculateHarmonyBaseline tgt pat).shapeScore = .fin 50)
    ∧ (∀ p : Node, ∀ ps : List Node,
        sortByAreaDesc ((collectAllNodes tgt).filter isVisualContainer) = p :: ps →
        (calculateHarmonyBaseline tgt pat).shapeScore =
          (if jsLe pat.cornerRadiusRange.min (.fin (p.attrs.cornerRadius.getD 0)) &&
              jsLe (.fin (p.attrs.cornerRadius.getD 0)) pat.cornerRadiusRange.max
           then .fin 100
           else jsRound (jsMax (.fin 0) (jsSub (.fin 100) (jsMul
             (jsDiv (.fin |p.attrs.cornerRadius.getD 0 - pat.cornerRadiusRange.avg|)
               (jsMax (jsSub pat.cornerRadiusRange.max (.fin pat.cornerRadiusRange.avg))
                 (jsSub (.fin pat.cornerRadiusRange.avg) pat.cornerRadiusRange.min)))
             (.fin 100)))))) := by
  constructor
  · intro h
    rw [calcB_shape, shapeScoreOf_nil _ _ h, jsRound_fin]
    norm_num
  · intro p ps h
    rw [calcB_shape, shapeScoreOf_cons _ _ p ps h]
    by_cases hin : (jsLe pat.cornerRadiusRange.min (.fin (p.attrs.cornerRadius.getD 0)) &&
        jsLe (.fin (p.attrs.cornerRadius.getD 0)) pat.cornerRadiusRange.max) = true
    · rw [if_pos hin, if_pos hin, jsRound_fin]
      norm_num
    · rw [if_neg hin, if_neg hin]

/-- C1 witness: one visual container with radius `6` against range `[4,8]`
    scores `100`. -/
theorem C1_amended_shape_witness :
    (calculateHarmonyBaseline tgtC1w patC1w).shapeScore = .fin 100 := by
  have h := (C1_amended_shape tgtC1w patC1w).2 tgtC1w [] (by with_unfolding_all rfl)
  rw [h]
  with_unfolding_all rfl

/-- C8 counterexample: with zero corner-radius observations the extractor
    yields `{min: +Infinity, max: -Infinity, avg: 0}` — the average is the
    definite number `0` (the `|| 0` fallback), not a NaN-like undefined
    value. -/
theorem C8_counterexample :
    (extractStylePatterns [nC8]).cornerRadiusRange =
      { min := JsNum.posInf, max := JsNum.negInf, avg := 0 } := by
  with_unfolding_all rfl

/-- C8 amended: an empty observation set gives the inverted range
    `{+Infinity, -Infinity}` (no value lies within it — not a valid zero
    range) while `avg` is coerced to the definite number `0`; the same
    holds for the spacing range. -/
theorem C8_amended (components : List Node)
    (h : (collectAllNodesList components).filterMap (fun n => n.attrs.cornerRadius) = []) :
    ((extractStylePatterns components).cornerRadiusRange =
      { min := JsNum.posInf, max := JsNum.negInf, avg := 0 })
    ∧ (∀ q : ℚ, (jsLe (extractStylePatterns components).cornerRadiusRange.min (.fin q) &&
        jsLe (.fin q) (extractStylePatterns components).cornerRadiusRange.max) = false)
    ∧ ((collectAllNodesList components).flatMap padList = [] →
        (extractStylePatterns components).spacingValues =
          { min := JsNum.posInf, max := JsNum.negInf, avg := 0 }) := by
  have hproj : (extractStylePatterns components).cornerRadiusRange =
      mkRange ((collectAllNodesList components).filterMap (fun n => n.attrs.cornerRadius)) := rfl
  refine ⟨?_, ?_, ?_⟩
  · rw [hproj, h]
    rfl
  · intro q
    rw [hproj, h]
    rfl
  · intro hsp
    have hproj2 : (extractStylePatterns components).spacingValues =
        mkRange ((collectAllNodesList components).flatMap padList) := rfl
    rw [hproj2, hsp]
    rfl

/-- C8 witness: no rational `5` lies within the empty-observation range. -/
theorem C8_amended_witness :
    (jsLe (extractStylePatterns [nC8w]).cornerRadiusRange.min (.fin 5) &&
     jsLe (.fin 5) (extractStylePatterns [nC8w]).cornerRadiusRange.max) = false := by
  have h := (C8_amended [nC8w] (by with_unfolding_all rfl)).2.1 5
  exact h

/-- C7: whenever filtering the baseline by the target's classified type
    yields zero components, the scan returns a structured failure (not a
    score) whose message contains the classified type name. -/
theorem C7_empty_pattern_failure (control reference : Node)
    (h : getComponentsOfType control (some (detectComponentType reference)) = []) :
    runScan control reference false =
      .failure ("No " ++ detectComponentType reference ++
        " components found in the selected baseline.")
    ∧ subListB (detectComponentType reference).data
        ("No " ++ detectComponentType reference ++
          " components found in the selected baseline.").data = true := by
  refine ⟨runScan_false_empty control reference h, ?_⟩
  have e : ("No " ++ detectComponentType reference ++
      " components found in the selected baseline.").data =
      "No ".data ++ ((detectComponentType reference).data ++
        " components found in the selected baseline.".data) := by
    simp [String.data_append]
  rw [e]
  exact subListB_append _ _ _

/-- C7 witness: a scan classified "Icon" over a baseline with no icons
    fails with a message referencing "Icon". -/
theorem C7_empty_pattern_failure_witness :
    detectComponentType refC7 = "Icon" ∧
    runScan ctrlC7 refC7 false =
      .failure "No Icon components found in the selected baseline." := by
  constructor
  · with_unfolding_all rfl
  · have h := (C7_empty_pattern_failure ctrlC7 refC7 (by with_unfolding_all rfl)).1
    rw [h]
    with_unfolding_all rfl

/-- C2 counterexample: in the component-match direction the returned score
    is NOT the single score against the aggregate summary: the scan returns
    colour `50` (best-of per-component scoring) while scoring once against
    the aggregate summary of the filtered set gives colour `100`. -/
theorem C2_counterexample :
    (match runScan ctrlC2 refC2 false with
     | ScanResult.success _ _ h => h.colorScore
     | _ => JsNum.nan) = .fin 50
    ∧ (calculateHarmonyBaseline refC2
        (extractStylePatterns (getComponentsOfType ctrlC2
          (some (detectComponentType refC2))))).colorScore = .fin 100 :=
  ⟨by with_unfolding_all rfl, by with_unfolding_all rfl⟩

/-- C2 amended: the two directions are swapped relative to the claim.
    With the flag false ("component match") the baseline IS filtered by the
    target's classified type and an aggregate summary is extracted, but the
    target is scored once per filtered component against that component's
    own individually extracted summary, and the highest-overallScore result
    is returned (all-zero if there are no candidates).  With the flag true
    ("baseline mode") every visible node of the pattern source's subtree is
    pooled into one aggregate summary and the test target (the control
    node — the roles swap) is scored exactly once against it. -/
theorem C2_amended (control reference : Node) :
    (getComponentsOfType control (some (detectComponentType reference)) ≠ [] →
      runScan control reference false =
        .success (detectComponentType reference)
          { extractStylePatterns (getComponentsOfType control
              (some (detectComponentType reference))) with
              components := getComponentsOfType control (some (detectComponentType reference)) }
          (((getComponentsOfType control (some (detectComponentType reference))).foldl
              (fun bestScore node =>
                let score := calculateHarmonyBaseline reference
                  (extractPatternsFromSingleNode (collectAllNodes reference) node)
                match bestScore with
                | none => some score
                | some b => if jsLt b.overallScore score.overallScore then some score else some b)
              none).getD zeroScore))
    ∧ (getComponentsOfType reference none ≠ [] →
      runScan control reference true =
        .success (detectComponentType reference)
          (extractStylePatterns (getComponentsOfType reference none))
          (calculateHarmonyBaseline control
            (extractStylePatterns (getComponentsOfType reference none)))) := by
  constructor
  · intro h
    rw [runScan_false_nonempty control reference h, calculateHarmony_false]
  · intro h
    exact runScan_true_nonempty control reference h

/-- C2 witness: the component-match scan over the two-button library
    succeeds with classified type "Button". -/
theorem C2_amended_witness :
    (match runScan ctrlC2 refC2 false with
     | ScanResult.success t _ _ => t
     | _ => "none") = "Button" := by
  have hne : getComponentsOfType ctrlC2 (some (detectComponentType refC2)) ≠ [] := by
    intro hh
    rw [show getComponentsOfType ctrlC2 (some (detectComponentType refC2)) =
      [btnWhite, btnBlack] from by with_unfolding_all rfl] at hh
    exact List.noConfusion hh
  have h := (C2_amended ctrlC2 refC2).1 hne
  rw [h]
  with_unfolding_all rfl

/-- C5: a target with no padding attribute scores spacing `0`; a target
    with paddings `(l,r,t,b)` scores `100·k/4` where `k` of the four lie
    within `[patternMin, patternMax]` inclusive. -/
theorem C5_spacing (tgt : Node) (pat : PatternSummary) :
    (tgt.attrs.padding = none → (calculateHarmonyBaseline tgt pat).spacingScore = .fin 0)
    ∧ (∀ l r t b : ℚ, tgt.attrs.padding = some (l, r, t, b) →
        (calculateHarmonyBaseline tgt pat).spacingScore =
          .fin (100 * (([l, r, t, b].filter (fun x =>
            jsLe pat.spacingValues.min (.fin x) && jsLe (.fin x) pat.spacingValues.max)).length : ℚ)
            / 4)) := by
  constructor
  · intro h
    rw [calcB_spacing]
    unfold spacingScoreOf
    rw [h, jsRound_fin]
    norm_num
  · intro l r t b h
    rw [calcB_spacing]
    unfold spacingScoreOf
    rw [h]
    dsimp only
    have h4 : (([l, r, t, b].length : ℕ) : ℚ) = 4 := by norm_num
    set k := ([l, r, t, b].filter (fun x =>
      jsLe pat.spacingValues.min (.fin x) && jsLe (.fin x) pat.spacingValues.max)).length with hk
    rw [h4]
    have heq : (k : ℚ) / 4 * 100 = 100 * (k : ℚ) / 4 := by ring
    rw [heq]
    have hint : (100 * (k : ℚ) / 4) = ((25 * k : ℤ) : ℚ) := by push_cast; ring
    rw [hint]
    exact jsRound_int (25 * k)

/-- C5 witness: paddings `(4,4,4,12)` against range `[0,10]` give `k = 3`,
    spacing score `75`. -/
theorem C5_spacing_witness :
    tgtC5.attrs.padding = some (4, 4, 4, 12) ∧
    (calculateHarmonyBaseline tgtC5 patC5).spacingScore = .fin 75 := by
  refine ⟨rfl, ?_⟩
  have h := (C5_spacing tgtC5 patC5).2 4 4 4 12 rfl
  rw [h]
  with_unfolding_all rfl

/-- C3: colour score is `50` on an empty fill multiset, else the rounded
    in-palette fraction of the target's solid fills (with multiplicity),
    always an integer in `[0,100]`; the `{#FFFFFF,#000000}` palette against
    fills `[#FFFFFF,#FFFFFF,#123456]` scores `round(100·2/3) = 67`. -/
theorem C3_color (tgt : Node) (pat : PatternSummary) :
    (solidHexes (collectAllNodes tgt) = [] →
      (calculateHarmonyBaseline tgt pat).colorScore = .fin 50)
    ∧ (solidHexes (collectAllNodes tgt) ≠ [] →
      (calculateHarmonyBaseline tgt pat).colorScore = jsRound (.fin (100 *
        (((solidHexes (collectAllNodes tgt)).filter
            (fun c => pat.colorPalette.contains c)).length : ℚ) /
        ((solidHexes (collectAllNodes tgt)).length : ℚ))))
    ∧ (∃ n : ℤ, (calculateHarmonyBaseline tgt pat).colorScore = .fin (n : ℚ) ∧
        0 ≤ n ∧ n ≤ 100)
    ∧ (calculateHarmonyBaseline tgtC3 patC3).colorScore = .fin 67 := by
  refine ⟨?_, ?_, ?_, by with_unfolding_all rfl⟩
  · intro h
    rw [calcB_color]
    unfold colorScoreOf
    simp only [h, List.length_nil, if_pos]
    rw [jsRound_fin]
    norm_num
  · intro h
    rw [calcB_color]
    unfold colorScoreOf
    have hne : ¬((solidHexes (collectAllNodes tgt)).length = 0) := by
      simpa [List.length_eq_zero] using h
    rw [if_neg hne]
    congr 2
    ring
  · obtain ⟨h0, h1⟩ := colorScoreOf_bounds pat.colorPalette (collectAllNodes tgt)
    rw [calcB_color]
    exact jsRound_bounds h0 h1

/-- C3 witness: the scenario target has fills, and its colour score is the
    rounded in-palette fraction. -/
theorem C3_color_witness :
    solidHexes (collectAllNodes tgtC3) ≠ [] ∧
    (calculateHarmonyBaseline tgtC3 patC3).colorScore =
      jsRound (.fin (100 * (((solidHexes (collectAllNodes tgtC3)).filter
        (fun c => patC3.colorPalette.contains c)).length : ℚ) /
        ((solidHexes (collectAllNodes tgtC3)).length : ℚ))) := by
  have hne : solidHexes (collectAllNodes tgtC3) ≠ [] := by
    intro hh
    rw [show solidHexes (collectAllNodes tgtC3) = ["#FFFFFF", "#FFFFFF", "#123456"] from
      by with_unfolding_all rfl] at hh
    exact List.noConfusion hh
  exact ⟨hne, (C3_color tgtC3 patC3).2.1 hne⟩

/-- C4: only the first depth-first text node is inspected; no text (or an
    unresolvable font) scores `0`; otherwise `60` for a family match among
    the pattern signatures, `+20` if one of those also matches the style,
    `+20` if one of those also has a size within `2`; the score is always
    one of `{0, 60, 80, 100}`. -/
theorem C4_typography (tgt : Node) (pat : PatternSummary) :
    ((collectAllNodes tgt).find? (fun n => n.attrs.ntype == "TEXT") = none →
      (calculateHarmonyBaseline tgt pat).typographyScore = .fin 0)
    ∧ (∀ t : Node, (collectAllNodes tgt).find? (fun n => n.attrs.ntype == "TEXT") = some t →
        t.attrs.fontName = none →
        (calculateHarmonyBaseline tgt pat).typographyScore = .fin 0)
    ∧ (∀ t : Node, ∀ fn : FontName,
        (collectAllNodes tgt).find? (fun n => n.attrs.ntype == "TEXT") = some t →
        t.attrs.fontName = some fn →
        (calculateHarmonyBaseline tgt pat).typographyScore = .fin
          (if pat.typographyStyles.any (fun s => s.family == fn.family) then
            60 + (if pat.typographyStyles.any (fun s =>
                s.family == fn.family && s.style == fn.style) then
              20 + (if pat.typographyStyles.any (fun s =>
                  s.family == fn.family && (s.style == fn.style &&
                    decide (|s.size - t.attrs.fontSize| ≤ 2))) then 20 else 0)
              else 0)
          else 0))
    ∧ ((calculateHarmonyBaseline tgt pat).typographyScore = .fin 0 ∨
       (calculateHarmonyBaseline tgt pat).typographyScore = .fin 60 ∨
       (calculateHarmonyBaseline tgt pat).typographyScore = .fin 80 ∨
       (calculateHarmonyBaseline tgt pat).typographyScore = .fin 100) := by
  have r0 : jsRound (.fin (0 : ℚ)) = .fin 0 := by rw [jsRound_fin]; norm_num
  have r60 : jsRound (.fin (60 : ℚ)) = .fin 60 := by rw [jsRound_fin]; norm_num
  have r80 : jsRound (.fin (80 : ℚ)) = .fin 80 := by rw [jsRound_fin]; norm_num
  have r100 : jsRound (.fin (100 : ℚ)) = .fin 100 := by rw [jsRound_fin]; norm_num
  refine ⟨?_, ?_, ?_, ?_⟩
  · intro h
    rw [calcB_typo]
    unfold typographyScoreOf
    rw [h]
    exact r0
  · intro t hfind hfn
    rw [calcB_typo]
    unfold typographyScoreOf
    rw [hfind]
    dsimp only
    rw [hfn]
    exact r0
  · intro t fn hfind hfn
    rw [calcB_typo]
    unfold typographyScoreOf
    rw [hfind]
    dsimp only
    rw [hfn]
    dsimp only
    by_cases hfam : pat.typographyStyles.any (fun s => s.family == fn.family) = true
    · have hf0 : ¬((pat.typographyStyles.filter (fun s => s.family == fn.family)).length = 0) := by
        rw [filter_length_zero_iff]
        simp [hfam]
      rw [if_neg hf0, if_pos hfam]
      by_cases hsty : pat.typographyStyles.any (fun s =>
          s.family == fn.family && s.style == fn.style) = true
      · have hs0 : ¬(((pat.typographyStyles.filter (fun s => s.family == fn.family)).filter
            (fun s => s.style == fn.style)).length = 0) := by
          rw [filter_length_zero_iff, any_filter_eq]
          simp [hsty]
        rw [if_neg hs0, if_pos hsty]
        by_cases hsz : pat.typographyStyles.any (fun s =>
            s.family == fn.family && (s.style == fn.style &&
              decide (|s.size - t.attrs.fontSize| ≤ 2))) = true
        · have hs1 : ((pat.typographyStyles.filter (fun s => s.family == fn.family)).filter
              (fun s => s.style == fn.style)).any
              (fun s => decide (|s.size - t.attrs.fontSize| ≤ 2)) = true := by
            rw [any_filter_eq, any_filter_eq]
            exact hsz
          rw [if_pos hs1, if_pos hsz]
          rw [show (60 + (20 + 20) : ℚ) = 100 from by norm_num]
          exact r100
        · have hs1 : ¬(((pat.typographyStyles.filter (fun s => s.family == fn.family)).filter
              (fun s => s.style == fn.style)).any
              (fun s => decide (|s.size - t.attrs.fontSize| ≤ 2)) = true) := by
            rw [any_filter_eq, any_filter_eq]
            exact hsz
          rw [if_neg hs1, if_neg hsz]
          rw [show (60 + (20 + 0) : ℚ) = 80 from by norm_num]
          exact r80
      · have hs0 : ((pat.typographyStyles.filter (fun s => s.family == fn.family)).filter
            (fun s => s.style == fn.style)).length = 0 := by
          rw [filter_length_zero_iff, any_filter_eq]
          simpa using hsty
        rw [if_pos hs0, if_neg hsty]
        rw [show (60 + 0 : ℚ) = 60 from by norm_num]
        exact r60
    · have hf0 : (pat.typographyStyles.filter (fun s => s.family == fn.family)).length = 0 := by
        rw [filter_length_zero_iff]
        simpa using hfam
      rw [if_pos hf0, if_neg hfam]
      exact r0
  · rcases typographyScoreOf_cases pat.typographyStyles (collectAllNodes tgt) with h | h | h | h
    · exact Or.inl (by rw [calcB_typo, h]; exact r0)
    · exact Or.inr (Or.inl (by rw [calcB_typo, h]; exact r60))
    · exact Or.inr (Or.inr (Or.inl (by rw [calcB_typo, h]; exact r80)))
    · exact Or.inr (Or.inr (Or.inr (by rw [calcB_typo, h]; exact r100)))

/-- C4 witness: text `Inter Bold 20` against signature `Inter Bold 30`
    scores `80` (family and style credit, no size credit). -/
theorem C4_typography_witness :
    (calculateHarmonyBaseline tgtC4 patC4).typographyScore = .fin 80 := by
  have h := (C4_typography tgtC4 patC4).2.2.1 textC4 ⟨"Inter", "Bold"⟩
    (by with_unfolding_all rfl) rfl
  rw [h]
  with_unfolding_all rfl

/-- The unrounded typography score lies in `[0, 100]`. -/
lemma typographyScoreOf_bounds (sigs : List TypoSig) (ns : List Node) :
    0 ≤ typographyScoreOf sigs ns ∧ typographyScoreOf sigs ns ≤ 100 := by
  rcases typographyScoreOf_cases sigs ns with h | h | h | h <;> rw [h] <;> norm_num

/-- C6 counterexample: for the 13-fill target (5 in palette) the returned
    score object is `(38, 50, 0, 0)` with overall `27`, but recomputing
    `round(0.30·38 + 0.30·50 + 0.25·0 + 0.15·0)` from the ROUNDED returned
    category scores gives `26`: the overall is computed from the unrounded
    scores, not from the returned fields. -/
theorem C6_counterexample :
    calculateHarmonyBaseline tgtC6 patC6 =
      { colorScore := .fin 38, shapeScore := .fin 50, typographyScore := .fin 0,
        spacingScore := .fin 0, overallScore := .fin 27 }
    ∧ jsRound (jsAdd (jsAdd (jsAdd (jsMul (.fin 38) (.fin (3/10)))
        (jsMul (.fin 50) (.fin (3/10)))) (jsMul (.fin 0) (.fin (1/4))))
        (jsMul (.fin 0) (.fin (3/20)))) = .fin 26 :=
  ⟨by with_unfolding_all rfl, by with_unfolding_all rfl⟩

/-- C6 amended: the overall score is `round` of the weighted sum of the
    UNROUNDED category scores (the returned category fields are rounded
    separately, and recomputing from them can differ by one).  For every
    extractor-producible radius range, all five returned values are
    integers in `[0,100]`; the boundary cases `(0,0,0,0) → 0` and
    `(100,100,100,100) → 100` hold. -/
theorem C6_overall (tgt : Node) (pat : PatternSummary) (hw : pat.cornerRadiusRange.wf) :
    ((calculateHarmonyBaseline tgt pat).overallScore =
      overallOf (colorScoreOf pat.colorPalette (collectAllNodes tgt))
        (shapeScoreOf pat.cornerRadiusRange (collectAllNodes tgt))
        (typographyScoreOf pat.typographyStyles (collectAllNodes tgt))
        (spacingScoreOf pat.spacingValues tgt))
    ∧ (∃ n : ℤ, (calculateHarmonyBaseline tgt pat).colorScore = .fin (n : ℚ) ∧ 0 ≤ n ∧ n ≤ 100)
    ∧ (∃ n : ℤ, (calculateHarmonyBaseline tgt pat).shapeScore = .fin (n : ℚ) ∧ 0 ≤ n ∧ n ≤ 100)
    ∧ (∃ n : ℤ, (calculateHarmonyBaseline tgt pat).typographyScore = .fin (n : ℚ) ∧
        0 ≤ n ∧ n ≤ 100)
    ∧ (∃ n : ℤ, (calculateHarmonyBaseline tgt pat).spacingScore = .fin (n : ℚ) ∧ 0 ≤ n ∧ n ≤ 100)
    ∧ (∃ n : ℤ, (calculateHarmonyBaseline tgt pat).overallScore = .fin (n : ℚ) ∧ 0 ≤ n ∧ n ≤ 100)
    ∧ calculateHarmonyBaseline tgtC6zero patC6zero =
        { colorScore := .fin 0, shapeScore := .fin 0, typographyScore := .fin 0,
          spacingScore := .fin 0, overallScore := .fin 0 }
    ∧ calculateHarmonyBaseline tgtC6full patC6full =
        { colorScore := .fin 100, shapeScore := .fin 100, typographyScore := .fin 100,
          spacingScore := .fin 100, overallScore := .fin 100 } := by
  obtain ⟨hc0, hc1⟩ := colorScoreOf_bounds pat.colorPalette (collectAllNodes tgt)
  obtain ⟨ht0, ht1⟩ := typographyScoreOf_bounds pat.typographyStyles (collectAllNodes tgt)
  obtain ⟨hp0, hp1⟩ := spacingScoreOf_bounds pat.spacingValues tgt
  obtain ⟨q, hq, hq0, hq1⟩ := shapeScoreOf_wf pat.cornerRadiusRange (collectAllNodes tgt) hw
  refine ⟨calcB_overall tgt pat, ?_, ?_, ?_, ?_, ?_,
    by with_unfolding_all rfl, by with_unfolding_all rfl⟩
  · rw [calcB_color]
    exact jsRound_bounds hc0 hc1
  · rw [calcB_shape, hq]
    exact jsRound_bounds hq0 hq1
  · rw [calcB_typo]
    exact jsRound_bounds ht0 ht1
  · rw [calcB_spacing]
    exact jsRound_bounds hp0 hp1
  · rw [calcB_overall]
    unfold overallOf
    rw [hq]
    simp only [jsMul_fin, jsAdd_fin]
    apply jsRound_bounds
    · nlinarith
    · nlinarith

/-- C6 witness: the 13-fill target with the singleton palette has an
    integral overall score in `[0,100]`. -/
theorem C6_overall_witness :
    ∃ n : ℤ, (calculateHarmonyBaseline tgtC6 patC6).overallScore = .fin (n : ℚ) ∧
      0 ≤ n ∧ n ≤ 100 :=
  (C6_overall tgtC6 patC6
    (Or.inr ⟨0, 0, rfl, rfl, le_refl 0, le_refl 0⟩)).2.2.2.2.2.1
